import Mathlib

/-!
Verification of the container-host VM provisioning pipeline.

This file gives a shallow embedding, in Lean, of the Go sources
`main.go` and `coreos_download.go` of the container-host repository, and
proves properties of the embedded definitions.  The filesystem is
modelled as a map from path strings to optional byte lists; bytes are
natural numbers; Go `int64` arithmetic is modelled on `Int` with an
explicit two's-complement wrap; fallible operations return `Option` or a
`Bool` success flag, and external outcomes (network, subprocesses,
clocks, entropy) are parameters of the embedded functions.
-/

namespace ContainerHost

/-- A filesystem: a map from paths to file contents (lists of bytes). -/
abbrev FS := String → Option (List Nat)

/-- Write (create or truncate) a file. -/
def fsWrite (fs : FS) (p : String) (c : List Nat) : FS :=
  fun q => if q = p then some c else fs q

/-- Remove a file. -/
def fsRemove (fs : FS) (p : String) : FS :=
  fun q => if q = p then none else fs q

/-- Atomic rename: `dst` receives the contents of `src`; `src` disappears. -/
def fsRename (fs : FS) (src dst : String) : FS :=
  fun q => if q = dst then fs src else if q = src then none else fs q

/-- Two's-complement wrap of Go `int64` arithmetic. -/
def int64Wrap (x : Int) : Int :=
  (x + 9223372036854775808) % 18446744073709551616 - 9223372036854775808

/-- `progressWriter` (coreos_download.go lines 17-22).  `total` and
`processed` are Go `int64` fields; the `last` print time is modelled as
integer nanoseconds with the zero `time.Time` as `0`. -/
structure progressWriter where
  label : String
  total : Int
  processed : Int
  last : Int

/-- `progressWriter.Write` (coreos_download.go lines 24-38): adds `len p`
to `processed`, possibly refreshes the progress line (visible here only
through the `last` field), and returns `(len p, nil)`.  The result is
(updated writer, returned byte count, returned error). -/
def progressWriter.write (pw : progressWriter) (p : List Nat) (now : Int) :
    progressWriter × Nat × Option String :=
  let n := p.length
  let processed := int64Wrap (pw.processed + n)
  let pw1 : progressWriter := { pw with processed := processed }
  let pw2 : progressWriter :=
    if pw.last = 0 ∨ now - pw.last ≥ 200000000 ∨ (pw.total > 0 ∧ processed ≥ pw.total) then
      { pw1 with last := now }
    else pw1
  (pw2, n, none)

/-- Stream a list of (chunk, clock reading) pairs through
`progressWriter.write`, as `io.Copy` with a `TeeReader`/`MultiWriter`
does during download and extraction. -/
def progressWriter.writeAll (pw : progressWriter) :
    List (List Nat × Int) → progressWriter
  | [] => pw
  | (p, t) :: rest => progressWriter.writeAll (progressWriter.write pw p t).1 rest

/-- Total number of bytes in a chunk list. -/
def chunksLength : List (List Nat × Int) → Nat
  | [] => 0
  | (p, _) :: rest => p.length + chunksLength rest

/-- `qemuProfile` (main.go lines 224-229). -/
structure qemuProfile where
  binary : String
  machine : String
  cpu : String
  biosCandidates : List String
  deriving DecidableEq

/-- `profileForArch` (main.go lines 231-267). -/
def profileForArch (arch : String) : qemuProfile :=
  if arch = "aarch64" then
    { binary := "qemu-system-aarch64", machine := "virt", cpu := "max",
      biosCandidates :=
        ["/opt/homebrew/share/qemu/edk2-aarch64-code.fd",
         "/usr/share/edk2/aarch64/QEMU_EFI.fd",
         "/usr/share/AAVMF/AAVMF_CODE.fd",
         "/usr/share/qemu-efi-aarch64/QEMU_EFI.fd"] }
  else if arch = "x86_64" ∨ arch = "amd64" then
    { binary := "qemu-system-x86_64", machine := "q35", cpu := "max",
      biosCandidates :=
        ["/opt/homebrew/share/qemu/edk2-x86_64-code.fd",
         "/usr/share/OVMF/OVMF_CODE.fd",
         "/usr/share/edk2/ovmf/OVMF_CODE.fd"] }
  else
    { binary := "qemu-system-" ++ arch, machine := "virt", cpu := "host",
      biosCandidates := [] }

/-- `findFirstExisting` (main.go lines 214-222), abstracted over the
host-filesystem existence test `os.Stat`. -/
def findFirstExisting (pathExists : String → Bool) : List String → String
  | [] => ""
  | p :: rest => if pathExists p then p else findFirstExisting pathExists rest

/-- main.go lines 391-396: a `-bios` argument pair is appended only when a
firmware candidate path exists on the host. -/
def biosArgsFor (pathExists : String → Bool) (prof : qemuProfile) : List String :=
  let biosPath := findFirstExisting pathExists prof.biosCandidates
  if biosPath ≠ "" then ["-bios", biosPath] else []

/-- `extractXZFast` (coreos_download.go lines 151-164), abstracted over the
environment: `lookPath` models `exec.LookPath`, `extOk bin` models whether
`extractWithExternalXZ bin src dst` returns nil, and `goResult` is the
value returned by `extractWithGoXZ` (`none` = success, `some e` = error). -/
def extractXZFast (lookPath : String → Option String) (extOk : String → Bool)
    (goResult : Option String) : Option String :=
  let afterXz : Option String :=
    match lookPath "unxz" with
    | some unxzPath => if extOk unxzPath then none else goResult
    | none => goResult
  match lookPath "xz" with
  | some xzPath => if extOk xzPath then none else afterXz
  | none => afterXz

/-- main.go line 303. -/
def sshPublicKeyPath : String := "ssh_keys/coreos_rsa.pub"

/-- main.go line 312. -/
def sshPrivateKeyPath : String := "ssh_keys/coreos_rsa"

/-- `generateSSHKeyPair` (main.go lines 156-212), filesystem effect only:
writes the PEM private key and the formatted public key line.  The key
material is a parameter, since `crypto/rand` is an external source. -/
def generateSSHKeyPair (fs : FS) (privPem pubLine : List Nat) : FS :=
  fsWrite (fsWrite fs sshPrivateKeyPath privPem) sshPublicKeyPath pubLine

/-- main.go lines 312-327: generate the key pair only when the public key
file is absent (`os.Stat` on `sshPublicKeyPath` is the sole existence
check), then read the public key file back (`readSSHPublicKey`).  Returns
the filesystem afterwards and the bytes read. -/
def ensureAndReadKey (fs : FS) (privPem pubLine : List Nat) :
    FS × Option (List Nat) :=
  let fs1 := if (fs sshPublicKeyPath).isNone then
               generateSSHKeyPair fs privPem pubLine
             else fs
  (fs1, fs1 sshPublicKeyPath)

/-- Outcomes of the external checks made by `main` (main.go lines 284-445),
in program order.  `ensureImageErr` is `ensureCoreOSImage` returning a
non-nil error; `keyGenErr` means the key pair was absent and its
generation failed; the remaining flags are the later fatal checks. -/
structure MainEnv where
  ensureImageErr : Bool
  vmImageMissing : Bool
  keyGenErr : Bool
  readKeyErr : Bool
  ignitionErr : Bool
  jsonInvalid : Bool
  writeConfigErr : Bool
  absPathErr : Bool
  qemuMissing : Bool
  deriving DecidableEq

/-- Result of `main`: either the process exited with status `code` having
printed an error message iff `errorReported`, or control reached
`qemuCmd.Run()` and a hypervisor instance was spawned. -/
inductive MainResult where
  | exited (code : Nat) (errorReported : Bool)
  | spawnedQemu
  deriving DecidableEq

/-- The fatal-error ladder of `main` (main.go lines 284-445).  Note line
290-292: a non-nil error from `ensureCoreOSImage` causes a bare `return`
from `main` — no message is printed for it and the process exit status is
0 — whereas every later fatal check prints to stderr and calls
`os.Exit(1)`. -/
def mainFlow (e : MainEnv) : MainResult :=
  if e.ensureImageErr then .exited 0 false
  else if e.vmImageMissing then .exited 1 true
  else if e.keyGenErr then .exited 1 true
  else if e.readKeyErr then .exited 1 true
  else if e.ignitionErr then .exited 1 true
  else if e.jsonInvalid then .exited 1 true
  else if e.writeConfigErr then .exited 1 true
  else if e.absPathErr then .exited 1 true
  else if e.qemuMissing then .exited 1 true
  else .spawnedQemu

/-- Decimal digit test. -/
def isDigit (c : Char) : Bool := 48 ≤ c.toNat && c.toNat ≤ 57

/-- `strconv.Atoi`, as `calculatePort` uses it (the multi-instance
`main.go` embedded in src/SECURITY.md after its second document
separator): an optional leading `+` or `-` sign followed by at least one
decimal digit; a value outside the 64-bit int range is an `ErrRange`
error.  `none` models a non-nil error. -/
def goAtoi (s : String) : Option Int :=
  match s.data with
  | [] => none
  | c :: rest =>
    let neg : Bool := c = '-'
    let digits : List Char := if c = '+' ∨ c = '-' then rest else c :: rest
    if digits.isEmpty then none
    else if digits.all isDigit then
      let n : Nat := digits.foldl (fun a d => a * 10 + (d.toNat - 48)) 0
      if neg then
        if n ≤ 9223372036854775808 then some (-(n : Int)) else none
      else
        if n ≤ 9223372036854775807 then some (n : Int) else none
    else none

/-- Decimal digits of `n`, most significant first (empty for 0);
fuel-indexed so the recursion is structural. -/
def natToDigitsAux : Nat → Nat → List Char
  | 0, _ => []
  | fuel + 1, n =>
    if n = 0 then [] else natToDigitsAux fuel (n / 10) ++ [Char.ofNat (48 + n % 10)]

/-- Decimal representation of a natural number. -/
def natToDecimal (n : Nat) : List Char :=
  if n = 0 then ['0'] else natToDigitsAux (n + 1) n

/-- `strconv.Itoa` on a 64-bit int value: a minus sign for negatives,
then the decimal digits. -/
def strconvItoa (v : Int) : String :=
  if v < 0 then String.mk ('-' :: natToDecimal v.natAbs)
  else String.mk (natToDecimal v.natAbs)

/-- `calculatePort` (the multi-instance `main.go` embedded in
src/SECURITY.md): `strconv.Atoi` the base-port string, add the instance
offset (Go `int` addition wraps at 64 bits), and render the sum with
`strconv.Itoa`; a parse failure is returned as an error (`none`). -/
def calculatePort (basePort : String) (instanceOffset : Int) : Option String :=
  match goAtoi basePort with
  | none => none
  | some port => some (strconvItoa (int64Wrap (port + instanceOffset)))

/-- The six port strings the instance loop of the embedded multi-instance
`main.go` derives for instance offset `i`: one `calculatePort` call per
category base (ssh, vnc, docker, http, kubernetes, k0s). -/
def instancePortSet (bases : List String) (i : Int) : List (Option String) :=
  bases.map (fun b => calculatePort b i)

/-- The six base-port strings of the configuration: src/main.go lines
294-303, identical to the `loadConfig` defaults of the embedded
multi-instance `main.go` (ssh, vnc, docker/container API, http,
kubernetes API, k0s management). -/
def basePortStrings : List String := ["2222", "5900", "2377", "80", "6443", "9443"]

/-- The name `os.CreateTemp(filepath.Dir(dstPath), filepath.Base(dstPath)
++ ".tmp-*")` produces (coreos_download.go lines 177 and 221): for a clean
path, `Join(Dir p, Base p) = p`, so the temp file lives in the target
directory and its name is the target name plus `.tmp-` plus a random
suffix. -/
def tmpName (dstPath suffix : String) : String := dstPath ++ ".tmp-" ++ suffix

/-- Environment outcomes of one `extractWithExternalXZ` run
(coreos_download.go lines 166-206), in the order the code meets them.
`copied` is whatever the decompressor pipe delivered to the temp file
before `io.Copy` returned (all of the output when `copyOk`). -/
structure ExtXZRun where
  pipeOk : Bool
  startOk : Bool
  tempOk : Bool
  copied : List Nat
  copyOk : Bool
  waitOk : Bool
  syncOk : Bool
  closeOk : Bool
  renameOk : Bool

/-- The sequence of filesystem states `extractWithExternalXZ`
(coreos_download.go lines 166-206) moves through, one entry per
filesystem mutation: temp-file creation, the `io.Copy` into the temp
file, then either the deferred `os.Remove` of the temp file (on any
error) or the `os.Rename` onto the target followed by the now-vacuous
deferred remove.  An interruption at any point leaves the filesystem in
one of the listed states. -/
def extractWithExternalXZtrace (fs : FS) (dstPath suffix : String)
    (r : ExtXZRun) : List FS :=
  if !r.pipeOk then [fs]
  else if !r.startOk then [fs]
  else if !r.tempOk then [fs]
  else
    let tmp := tmpName dstPath suffix
    let s1 := fsWrite fs tmp []
    let s2 := fsWrite s1 tmp r.copied
    if !r.copyOk || !r.waitOk || !r.syncOk || !r.closeOk then
      [fs, s1, s2, fsRemove s2 tmp]
    else if !r.renameOk then
      [fs, s1, s2, fsRemove s2 tmp]
    else
      let s3 := fsRename s2 tmp dstPath
      [fs, s1, s2, s3, fsRemove s3 tmp]

/-- Environment outcomes of one `extractWithGoXZ` run (coreos_download.go
lines 208-244).  `readerOk` is `xz.NewReader` succeeding; `copied` is
whatever the in-process decompressor delivered to the temp file before
`io.CopyBuffer` returned (all of the output when `copyOk`). -/
structure GoXZRun where
  readerOk : Bool
  tempOk : Bool
  copied : List Nat
  copyOk : Bool
  syncOk : Bool
  closeOk : Bool
  renameOk : Bool

/-- The sequence of filesystem states `extractWithGoXZ`
(coreos_download.go lines 208-244) moves through; same reading as
`extractWithExternalXZtrace`.  Opening `srcPath` fails iff the file is
absent. -/
def extractWithGoXZtrace (fs : FS) (srcPath dstPath suffix : String)
    (r : GoXZRun) : List FS :=
  if (fs srcPath).isNone then [fs]
  else if !r.readerOk then [fs]
  else if !r.tempOk then [fs]
  else
    let tmp := tmpName dstPath suffix
    let s1 := fsWrite fs tmp []
    let s2 := fsWrite s1 tmp r.copied
    if !r.copyOk || !r.syncOk || !r.closeOk then
      [fs, s1, s2, fsRemove s2 tmp]
    else if !r.renameOk then
      [fs, s1, s2, fsRemove s2 tmp]
    else
      let s3 := fsRename s2 tmp dstPath
      [fs, s1, s2, s3, fsRemove s3 tmp]

/-- World state for `ensureCoreOSImage`: the filesystem plus counters for
the externally observable requests (HTTP downloads issued, extractions
run).  The counters instrument the model; the Go code has no such
variables, they count the `http.Get` and `extractXZFast` call sites. -/
structure World where
  fs : FS
  httpGets : Nat
  extracts : Nat

/-- Cache path `vms/coreos-<version>-<arch>.xz` (coreos_download.go line 64). -/
def vmsFileName (root version arch : String) : String :=
  root ++ "/vms/coreos-" ++ version ++ "-" ++ arch ++ ".xz"

/-- Staged path `images/coreos-<version>-<arch>.xz` (coreos_download.go line 65). -/
def imagesFileName (root version arch : String) : String :=
  root ++ "/images/coreos-" ++ version ++ "-" ++ arch ++ ".xz"

/-- Extracted path `images/coreos-<version>-qemu.<arch>.qcow2`
(coreos_download.go line 66). -/
def qcow2FileName (root version arch : String) : String :=
  root ++ "/images/coreos-" ++ version ++ "-qemu." ++ arch ++ ".qcow2"

/-- `linkOrCopy` (coreos_download.go lines 122-149): skip when the
destination already exists with the source's size, otherwise remove the
destination and hard-link (or byte-copy) the source onto it; both the
link and the copy fail when the source is unreadable. -/
def linkOrCopy (fs : FS) (src dst : String) : FS × Bool :=
  let place : FS → FS × Bool := fun f =>
    match f src with
    | some s => (fsWrite f dst s, true)
    | none => (f, false)
  match fs dst, fs src with
  | some d, some s => if d.length = s.length then (fs, true) else place (fsRemove fs dst)
  | some _, none => place (fsRemove fs dst)
  | none, _ => place fs

/-- `ensureCoreOSImage` (coreos_download.go lines 53-120), abstracted over
the network (`remote` is the response body, `none` meaning the request
itself failed; `status200` whether the status was 200 OK) and over the
decompressor (`extractOk`, with `extracted` the decompressed bytes, which
`extractXZFast` installs atomically at the target on success).  Returns
the new world and a success flag (`false` = non-nil error). -/
def ensureCoreOSImage (remote : Option (List Nat)) (status200 : Bool)
    (extractOk : Bool) (extracted : List Nat)
    (root version arch : String) (w : World) : World × Bool :=
  let vmsFile := vmsFileName root version arch
  let imagesFile := imagesFileName root version arch
  let qcow2File := qcow2FileName root version arch
  let step1 : World × Bool :=
    if (w.fs vmsFile).isNone then
      let w1 : World := { w with httpGets := w.httpGets + 1 }
      match remote with
      | none => (w1, false)
      | some body =>
        if status200 then ({ w1 with fs := fsWrite w1.fs vmsFile body }, true)
        else (w1, false)
    else (w, true)
  if !step1.2 then (step1.1, false)
  else
    let w1 := step1.1
    let placed := linkOrCopy w1.fs vmsFile imagesFile
    let w2 : World := { w1 with fs := placed.1 }
    if !placed.2 then (w2, false)
    else if (w2.fs qcow2File).isNone then
      let w3 : World := { w2 with extracts := w2.extracts + 1 }
      if extractOk then ({ w3 with fs := fsWrite w3.fs qcow2File extracted }, true)
      else (w3, false)
    else (w2, true)

/-- Opening curly brace character. -/
def lbraceChar : Char := Char.ofNat 123

/-- Closing curly brace character. -/
def rbraceChar : Char := Char.ofNat 125

/-- Lowercase hexadecimal digit, as Go's JSON encoder emits. -/
def hexDigitChar (n : Nat) : Char :=
  if n < 10 then Char.ofNat (48 + n) else Char.ofNat (87 + n)

/-- Value of one hexadecimal digit character. -/
def hexVal (c : Char) : Option Nat :=
  if 48 ≤ c.toNat ∧ c.toNat ≤ 57 then some (c.toNat - 48)
  else if 97 ≤ c.toNat ∧ c.toNat ≤ 102 then some (c.toNat - 87)
  else if 65 ≤ c.toNat ∧ c.toNat ≤ 70 then some (c.toNat - 55)
  else none

/-- Go `encoding/json` string escaping (with its default HTML escaping):
quote, backslash, newline, carriage return and tab get two-character
escapes; `<`, `>`, `&`, the remaining control characters and
U+2028/U+2029 get `\uXXXX` escapes; everything else is emitted as is. -/
def escapeChar (c : Char) : List Char :=
  if c = '"' then ['\\', '"']
  else if c = '\\' then ['\\', '\\']
  else if c = '\n' then ['\\', 'n']
  else if c = '\r' then ['\\', 'r']
  else if c = '\t' then ['\\', 't']
  else if c = '<' then ['\\', 'u', '0', '0', '3', 'c']
  else if c = '>' then ['\\', 'u', '0', '0', '3', 'e']
  else if c = '&' then ['\\', 'u', '0', '0', '2', '6']
  else if c.toNat < 32 then
    ['\\', 'u', '0', '0', hexDigitChar (c.toNat / 16), hexDigitChar (c.toNat % 16)]
  else if c.toNat = 8232 ∨ c.toNat = 8233 then
    ['\\', 'u', '2', '0', '2', hexDigitChar (c.toNat % 16)]
  else [c]

/-- Escape every character of a string body. -/
def escList : List Char → List Char
  | [] => []
  | c :: t => escapeChar c ++ escList t

/-- A JSON string literal: quote, escaped body, quote. -/
def printStr (s : String) : List Char :=
  '"' :: escList s.data ++ ['"']

mutual
/-- JSON values, as far as the Ignition document needs them (the document
contains only strings, booleans, arrays and objects — no numbers or
nulls). -/
inductive JVal : Type where
  | jstr : String → JVal
  | jbool : Bool → JVal
  | jarr : JItems → JVal
  | jobj : JFields → JVal

/-- Elements of a JSON array. -/
inductive JItems : Type where
  | nil : JItems
  | cons : JVal → JItems → JItems

/-- Fields of a JSON object, in order. -/
inductive JFields : Type where
  | nil : JFields
  | cons : String → JVal → JFields → JFields
end

mutual
/-- Serialize a JSON value exactly as Go's `json.Marshal` does: no
whitespace, object fields in declaration order. -/
def printJ : JVal → List Char
  | .jstr s => printStr s
  | .jbool true => ['t', 'r', 'u', 'e']
  | .jbool false => ['f', 'a', 'l', 's', 'e']
  | .jarr .nil => ['[', ']']
  | .jarr (.cons v t) => '[' :: (printJ v ++ printItemsTail t) ++ [']']
  | .jobj .nil => [lbraceChar, rbraceChar]
  | .jobj (.cons k v t) =>
    lbraceChar :: (printStr k ++ ':' :: (printJ v ++ printFieldsTail t)) ++ [rbraceChar]

/-- Comma-separated picture of the remaining array elements. -/
def printItemsTail : JItems → List Char
  | .nil => []
  | .cons v t => ',' :: (printJ v ++ printItemsTail t)

/-- Comma-separated picture of the remaining object fields. -/
def printFieldsTail : JFields → List Char
  | .nil => []
  | .cons k v t => ',' :: (printStr k ++ ':' :: (printJ v ++ printFieldsTail t))
end

/-- Parse a JSON string body (everything after the opening quote),
returning the decoded characters and the input after the closing quote.
Handles the standard two-character escapes and `\uXXXX`. -/
def parseStrBody : List Char → Option (List Char × List Char)
  | [] => none
  | c :: rest =>
    if c = '"' then some ([], rest)
    else if c = '\\' then
      match rest with
      | [] => none
      | e :: r =>
        if e = '"' then (parseStrBody r).map (fun p => ('"' :: p.1, p.2))
        else if e = '\\' then (parseStrBody r).map (fun p => ('\\' :: p.1, p.2))
        else if e = '/' then (parseStrBody r).map (fun p => ('/' :: p.1, p.2))
        else if e = 'n' then (parseStrBody r).map (fun p => ('\n' :: p.1, p.2))
        else if e = 'r' then (parseStrBody r).map (fun p => ('\r' :: p.1, p.2))
        else if e = 't' then (parseStrBody r).map (fun p => ('\t' :: p.1, p.2))
        else if e = 'b' then (parseStrBody r).map (fun p => (Char.ofNat 8 :: p.1, p.2))
        else if e = 'f' then (parseStrBody r).map (fun p => (Char.ofNat 12 :: p.1, p.2))
        else if e = 'u' then
          match r with
          | h1 :: h2 :: h3 :: h4 :: r2 =>
            match hexVal h1, hexVal h2, hexVal h3, hexVal h4 with
            | some a, some b, some c2, some d =>
              (parseStrBody r2).map
                (fun p => (Char.ofNat (((a * 16 + b) * 16 + c2) * 16 + d) :: p.1, p.2))
            | _, _, _, _ => none
          | _ => none
        else none
    else if 32 ≤ c.toNat then (parseStrBody rest).map (fun p => (c :: p.1, p.2))
    else none

mutual
/-- Recursive-descent JSON parser (model of `json.Unmarshal`'s scanner on
the whitespace-free documents `json.Marshal` emits), with explicit
fuel. -/
def parseJ : Nat → List Char → Option (JVal × List Char)
  | 0, _ => none
  | fuel + 1, l =>
    match l with
    | [] => none
    | c :: rest =>
      if c = '"' then
        (parseStrBody rest).map (fun p => (JVal.jstr (String.mk p.1), p.2))
      else if c = 't' then
        match rest with
        | 'r' :: 'u' :: 'e' :: r => some (.jbool true, r)
        | _ => none
      else if c = 'f' then
        match rest with
        | 'a' :: 'l' :: 's' :: 'e' :: r => some (.jbool false, r)
        | _ => none
      else if c = '[' then
        match rest with
        | ']' :: r => some (.jarr .nil, r)
        | _ => (parseItems fuel rest).map (fun p => (JVal.jarr p.1, p.2))
      else if c = lbraceChar then
        match rest with
        | [] => none
        | r0 :: r =>
          if r0 = rbraceChar then some (.jobj .nil, r)
          else (parseFields fuel rest).map (fun p => (JVal.jobj p.1, p.2))
      else none

/-- Parse one or more comma-separated array elements and the closing
bracket. -/
def parseItems : Nat → List Char → Option (JItems × List Char)
  | 0, _ => none
  | fuel + 1, l =>
    match parseJ fuel l with
    | none => none
    | some (v, r) =>
      match r with
      | ',' :: r2 => (parseItems fuel r2).map (fun p => (JItems.cons v p.1, p.2))
      | ']' :: r2 => some (JItems.cons v .nil, r2)
      | _ => none

/-- Parse one or more comma-separated `"key":value` fields and the
closing brace. -/
def parseFields : Nat → List Char → Option (JFields × List Char)
  | 0, _ => none
  | fuel + 1, l =>
    match l with
    | [] => none
    | c :: rest =>
      if c = '"' then
        match parseStrBody rest with
        | none => none
        | some (k, r) =>
          match r with
          | ':' :: r2 =>
            match parseJ fuel r2 with
            | none => none
            | some (v, r3) =>
              match r3 with
              | ',' :: r4 =>
                (parseFields fuel r4).map
                  (fun p => (JFields.cons (String.mk k) v p.1, p.2))
              | c2 :: r4 =>
                if c2 = rbraceChar then some (JFields.cons (String.mk k) v .nil, r4)
                else none
              | [] => none
          | _ => none
      else none
end

/-- Characters for which the embedding's escaping model is exercised by
the repository's documents: printable ASCII plus newline, carriage
return and tab. -/
def goodChar (c : Char) : Bool :=
  (32 ≤ c.toNat && c.toNat < 127) || c = '\n' || c = '\r' || c = '\t'

/-- Strings all of whose characters are `goodChar`. -/
def goodStr (s : String) : Bool := s.data.all goodChar

mutual
/-- JSON values all of whose strings (values and keys) are `goodStr`. -/
def goodJ : JVal → Bool
  | .jstr s => goodStr s
  | .jbool _ => true
  | .jarr it => goodItems it
  | .jobj fi => goodFields fi

/-- `goodJ` over array elements. -/
def goodItems : JItems → Bool
  | .nil => true
  | .cons v t => goodJ v && goodItems t

/-- `goodJ` over object fields. -/
def goodFields : JFields → Bool
  | .nil => true
  | .cons k v t => goodStr k && goodJ v && goodFields t
end

/-- `IgnitionSection` (main.go lines 29-31). -/
structure IgnitionSection where
  version : String
  deriving DecidableEq

/-- `User` (main.go lines 37-40). -/
structure User where
  name : String
  sshAuthorizedKeys : List String
  deriving DecidableEq

/-- `PasswdSection` (main.go lines 33-35). -/
structure PasswdSection where
  users : List User
  deriving DecidableEq

/-- `SystemdUnit` (main.go lines 46-50). -/
structure SystemdUnit where
  name : String
  enabled : Bool
  contents : String
  deriving DecidableEq

/-- `SystemdSection` (main.go lines 42-44). -/
structure SystemdSection where
  units : List SystemdUnit
  deriving DecidableEq

/-- `IgnitionConfig` (main.go lines 23-27). -/
structure IgnitionConfig where
  ignition : IgnitionSection
  passwd : PasswdSection
  systemd : SystemdSection
  deriving DecidableEq

/-- `unicode.IsSpace`, as `strings.TrimSpace` uses. -/
def goIsSpace (c : Char) : Bool :=
  let n := c.toNat
  n = 9 || n = 10 || n = 11 || n = 12 || n = 13 || n = 32 ||
  n = 133 || n = 160 || n = 5760 || (8192 ≤ n && n ≤ 8202) ||
  n = 8232 || n = 8233 || n = 8239 || n = 8287 || n = 12288

/-- `strings.TrimSpace`: drop Unicode whitespace from both ends. -/
def goTrimSpace (s : String) : String :=
  String.mk (((s.data.dropWhile goIsSpace).reverse.dropWhile goIsSpace).reverse)

/-- The `setupLinger` unit text (main.go lines 54-64). -/
def setupLinger : String :=
  "[Unit]\nDescription=Enable linger for user \x27core\x27 (start user manager at boot)\nAfter=network.target\n\n[Service]\nType=oneshot\nExecStart=/usr/bin/loginctl enable-linger core\n\n[Install]\nWantedBy=multi-user.target\n"

/-- The `dockerServiceContents` unit text (main.go lines 65-77). -/
def dockerServiceContents : String :=
  "[Unit]\nDescription=Enable and start Docker engine\nAfter=network-online.target\nWants=network-online.target\n\n[Service]\nType=oneshot\nRemainAfterExit=yes\nExecStart=/usr/bin/systemctl enable docker.service\nExecStart=/usr/bin/systemctl start docker.service\n\n[Install]\nWantedBy=multi-user.target"

/-- The `dockerTcpServiceContents` unit text (main.go lines 79-91). -/
def dockerTcpServiceContents : String :=
  "[Unit]\nDescription=Forward Docker socket over TCP\nAfter=docker.service\nRequires=docker.service\n\n[Service]\nType=simple\nRestart=always\nRestartSec=5\nExecStart=/usr/bin/socat TCP-LISTEN:2377,bind=0.0.0.0,fork,reuseaddr UNIX-CONNECT:/var/run/docker.sock\n\n[Install]\nWantedBy=multi-user.target"

/-- The `disableZincatiServiceContents` unit text (main.go lines 92-102). -/
def disableZincatiServiceContents : String :=
  "[Unit]\nDescription=Disable Zincati automatic updates\nDefaultDependencies=no\n\n[Service]\nType=oneshot\nRemainAfterExit=yes\nExecStart=/usr/bin/systemctl mask zincati.service\n\n[Install]\nWantedBy=multi-user.target"

/-- The `IgnitionConfig` value `createIgnitionConfig` builds (main.go
lines 104-136): one `core` user carrying the whitespace-trimmed public
key and the four fixed service units. -/
def ignitionConfigFor (sshPublicKey : String) : IgnitionConfig :=
  { ignition := { version := "3.4.0" },
    passwd := { users := [{ name := "core",
                            sshAuthorizedKeys := [goTrimSpace sshPublicKey] }] },
    systemd :=
      { units :=
          [{ name := "docker-setup.service", enabled := true,
             contents := dockerServiceContents },
           { name := "docker-tcp-proxy.service", enabled := true,
             contents := dockerTcpServiceContents },
           { name := "disable-zincati.service", enabled := true,
             contents := disableZincatiServiceContents },
           { name := "setup-linger-core.service", enabled := true,
             contents := setupLinger }] } }

/-- Encode a Go `[]string` value. -/
def encodeStrList : List String → JItems
  | [] => .nil
  | s :: t => .cons (.jstr s) (encodeStrList t)

/-- Encode a `User` with its JSON tags (main.go lines 37-40). -/
def encodeUser (u : User) : JVal :=
  .jobj (.cons "name" (.jstr u.name)
        (.cons "sshAuthorizedKeys" (.jarr (encodeStrList u.sshAuthorizedKeys)) .nil))

/-- Encode a `[]User` value. -/
def encodeUsers : List User → JItems
  | [] => .nil
  | u :: t => .cons (encodeUser u) (encodeUsers t)

/-- Encode a `SystemdUnit` with its JSON tags (main.go lines 46-50). -/
def encodeUnit (u : SystemdUnit) : JVal :=
  .jobj (.cons "name" (.jstr u.name)
        (.cons "enabled" (.jbool u.enabled)
        (.cons "contents" (.jstr u.contents) .nil)))

/-- Encode a `[]SystemdUnit` value. -/
def encodeUnits : List SystemdUnit → JItems
  | [] => .nil
  | u :: t => .cons (encodeUnit u) (encodeUnits t)

/-- Encode an `IgnitionConfig` with its JSON tags, fields in struct order
as `json.Marshal` emits them (main.go lines 23-50). -/
def encodeIgnitionConfig (c : IgnitionConfig) : JVal :=
  .jobj (.cons "ignition" (.jobj (.cons "version" (.jstr c.ignition.version) .nil))
        (.cons "passwd" (.jobj (.cons "users" (.jarr (encodeUsers c.passwd.users)) .nil))
        (.cons "systemd" (.jobj (.cons "units" (.jarr (encodeUnits c.systemd.units)) .nil))
         .nil)))

/-- `json.Marshal` of an `IgnitionConfig`. -/
def jsonMarshalIgnition (c : IgnitionConfig) : String :=
  String.mk (printJ (encodeIgnitionConfig c))

/-- `createIgnitionConfig` (main.go lines 53-144): build the document for
the given public key and return its serialized bytes (the marshal of this
fixed, well-formed structure cannot fail). -/
def createIgnitionConfig (sshPublicKey : String) : String :=
  jsonMarshalIgnition (ignitionConfigFor sshPublicKey)

/-- Field lookup in a parsed JSON object. -/
def jLookup : JFields → String → Option JVal
  | .nil, _ => none
  | .cons k v t, key => if k = key then some v else jLookup t key

/-- Go unmarshal semantics for one struct field: an absent field leaves
the zero value `dflt`; a present field must decode. -/
def decField (fs : JFields) (key : String) (dec : JVal → Option α) (dflt : α) :
    Option α :=
  match jLookup fs key with
  | none => some dflt
  | some v => dec v

/-- Decode a JSON string into a Go `string` field. -/
def decStr : JVal → Option String
  | .jstr s => some s
  | _ => none

/-- Decode a JSON boolean into a Go `bool` field. -/
def decBool : JVal → Option Bool
  | .jbool b => some b
  | _ => none

/-- Decode the elements of a JSON array into a `[]string`. -/
def decStrItems : JItems → Option (List String)
  | .nil => some []
  | .cons v t => do
    let s ← decStr v
    let rest ← decStrItems t
    pure (s :: rest)

/-- Decode a JSON array into a `[]string` field. -/
def decStrList : JVal → Option (List String)
  | .jarr it => decStrItems it
  | _ => none

/-- Decode a `User`. -/
def decodeUser : JVal → Option User
  | .jobj fs => do
    let n ← decField fs "name" decStr ""
    let ks ← decField fs "sshAuthorizedKeys" decStrList []
    pure { name := n, sshAuthorizedKeys := ks }
  | _ => none

/-- Decode the elements of a JSON array into a `[]User`. -/
def decodeUserItems : JItems → Option (List User)
  | .nil => some []
  | .cons v t => do
    let u ← decodeUser v
    let rest ← decodeUserItems t
    pure (u :: rest)

/-- Decode a JSON array into a `[]User` field. -/
def decodeUserList : JVal → Option (List User)
  | .jarr it => decodeUserItems it
  | _ => none

/-- Decode a `SystemdUnit`. -/
def decodeUnit : JVal → Option SystemdUnit
  | .jobj fs => do
    let n ← decField fs "name" decStr ""
    let e ← decField fs "enabled" decBool false
    let c ← decField fs "contents" decStr ""
    pure { name := n, enabled := e, contents := c }
  | _ => none

/-- Decode the elements of a JSON array into a `[]SystemdUnit`. -/
def decodeUnitItems : JItems → Option (List SystemdUnit)
  | .nil => some []
  | .cons v t => do
    let u ← decodeUnit v
    let rest ← decodeUnitItems t
    pure (u :: rest)

/-- Decode a JSON array into a `[]SystemdUnit` field. -/
def decodeUnitList : JVal → Option (List SystemdUnit)
  | .jarr it => decodeUnitItems it
  | _ => none

/-- Decode an `IgnitionSection`. -/
def decodeIgnitionSection : JVal → Option IgnitionSection
  | .jobj fs => do
    let v ← decField fs "version" decStr ""
    pure { version := v }
  | _ => none

/-- Decode a `PasswdSection`. -/
def decodePasswdSection : JVal → Option PasswdSection
  | .jobj fs => do
    let us ← decField fs "users" decodeUserList []
    pure { users := us }
  | _ => none

/-- Decode a `SystemdSection`. -/
def decodeSystemdSection : JVal → Option SystemdSection
  | .jobj fs => do
    let us ← decField fs "units" decodeUnitList []
    pure { units := us }
  | _ => none

/-- Decode an `IgnitionConfig`. -/
def decodeIgnitionConfig : JVal → Option IgnitionConfig
  | .jobj fs => do
    let ign ← decField fs "ignition" decodeIgnitionSection { version := "" }
    let pw ← decField fs "passwd" decodePasswdSection { users := [] }
    let sys ← decField fs "systemd" decodeSystemdSection { units := [] }
    pure { ignition := ign, passwd := pw, systemd := sys }
  | _ => none

/-- `json.Unmarshal(data, &IgnitionConfig{})`: parse the whole input and
decode it into the struct. -/
def jsonUnmarshalIgnition (s : String) : Option IgnitionConfig :=
  match parseJ (s.data.length + 1) s.data with
  | some (v, []) => decodeIgnitionConfig v
  | _ => none

/-- The self-check `main` performs on the serialized document (main.go
lines 341-348): unmarshal it back and fail only if that unmarshal
errors.  No comparison with the original structure is made. -/
def validateIgnitionJSON (s : String) : Bool :=
  (jsonUnmarshalIgnition s).isSome

/-- Whether `pat` occurs at the start of `l`. -/
def isPrefixSeq : List Char → List Char → Bool
  | [], _ => true
  | _ :: _, [] => false
  | a :: as, b :: bs => a = b && isPrefixSeq as bs

/-- Whether `pat` occurs contiguously anywhere in `l`. -/
def containsSeq (pat : List Char) : List Char → Bool
  | [] => pat.isEmpty
  | c :: t => isPrefixSeq pat (c :: t) || containsSeq pat t

/-- main.go line 299. -/
def dockerPort : String := "2377"

/-- The `-netdev` user-mode forwarding argument (main.go line 403),
instantiated with the configured port strings of main.go lines 294-302. -/
def netdevArg : String :=
  "user,id=net0,hostfwd=tcp::2222-:22,hostfwd=tcp::" ++ dockerPort ++
  "-:2377,hostfwd=tcp::80-:80,hostfwd=tcp::6443-:6443,hostfwd=tcp::9443-:9443"

/-! Theorems. -/

theorem int64Wrap_eq_self (x : Int) (h0 : 0 ≤ x) (h1 : x < 9223372036854775808) :
    int64Wrap x = x := by
  unfold int64Wrap
  omega

theorem progressWriter_write_processed (pw : progressWriter) (p : List Nat) (now : Int) :
    (progressWriter.write pw p now).1.processed = int64Wrap (pw.processed + p.length) := by
  unfold progressWriter.write
  dsimp only
  split <;> rfl

theorem progressWriter_writeAll_processed (chunks : List (List Nat × Int)) :
    ∀ pw : progressWriter, 0 ≤ pw.processed →
      pw.processed + chunksLength chunks < 9223372036854775808 →
      (progressWriter.writeAll pw chunks).processed = pw.processed + chunksLength chunks := by
  induction chunks with
  | nil => intro pw _ _; simp [progressWriter.writeAll, chunksLength]
  | cons c rest ih =>
    intro pw h0 h1
    obtain ⟨p, t⟩ := c
    have hc : chunksLength ((p, t) :: rest) = p.length + chunksLength rest := rfl
    rw [hc] at h1
    have hw : (progressWriter.write pw p t).1.processed = pw.processed + p.length := by
      rw [progressWriter_write_processed]
      exact int64Wrap_eq_self _ (by positivity) (by omega)
    have := ih (progressWriter.write pw p t).1 (by rw [hw]; positivity) (by rw [hw]; omega)
    calc (progressWriter.writeAll pw ((p, t) :: rest)).processed
        = (progressWriter.writeAll (progressWriter.write pw p t).1 rest).processed := rfl
      _ = (progressWriter.write pw p t).1.processed + chunksLength rest := this
      _ = pw.processed + (↑p.length + ↑(chunksLength rest)) := by rw [hw]; ring
      _ = pw.processed + chunksLength ((p, t) :: rest) := by rw [hc]; push_cast; ring

/-- C10: the progress sink's `Write` always returns exactly
`(len p, nil)` — never an error, never a short write — and increments the
`processed` counter by exactly `len p` (as a Go `int64`; exactly, absent
overflow); consequently streaming any chunk sequence through it leaves
`processed` equal to the total number of bytes streamed. -/
theorem progressWriter_write_total (pw : progressWriter) (p : List Nat) (now : Int)
    (chunks : List (List Nat × Int))
    (h0 : 0 ≤ pw.processed)
    (h1 : pw.processed + p.length < 9223372036854775808)
    (h2 : pw.processed + chunksLength chunks < 9223372036854775808) :
    (progressWriter.write pw p now).2.1 = p.length ∧
    (progressWriter.write pw p now).2.2 = none ∧
    (progressWriter.write pw p now).1.processed = pw.processed + p.length ∧
    (progressWriter.writeAll pw chunks).processed = pw.processed + chunksLength chunks := by
  refine ⟨rfl, rfl, ?_, progressWriter_writeAll_processed chunks pw h0 h2⟩
  rw [progressWriter_write_processed]
  exact int64Wrap_eq_self _ (by positivity) h1

theorem progressWriter_write_total_witness :
    (0 : Int) ≤ (3 : Int) ∧
    (3 : Int) + ([5, 6] : List Nat).length < 9223372036854775808 ∧
    (3 : Int) + chunksLength [([1], 0), ([2, 3], 7)] < 9223372036854775808 ∧
    ((progressWriter.write ⟨"dl", -1, 3, 0⟩ [5, 6] 9).2.1 = ([5, 6] : List Nat).length ∧
     (progressWriter.write ⟨"dl", -1, 3, 0⟩ [5, 6] 9).2.2 = none ∧
     (progressWriter.write ⟨"dl", -1, 3, 0⟩ [5, 6] 9).1.processed = 3 + ([5, 6] : List Nat).length ∧
     (progressWriter.writeAll ⟨"dl", -1, 3, 0⟩ [([1], 0), ([2, 3], 7)]).processed
       = 3 + chunksLength [([1], 0), ([2, 3], 7)]) :=
  ⟨by decide, by decide, by decide,
   progressWriter_write_total ⟨"dl", -1, 3, 0⟩ [5, 6] 9 [([1], 0), ([2, 3], 7)]
     (by decide) (by decide) (by decide)⟩

/-- C8 counterexample: `"amd64"` is not in `{aarch64, x86_64}`, yet
`profileForArch` gives it the x86_64 profile — a non-generic binary name
and a non-empty firmware-candidate list — so the claim as stated fails at
architecture `"amd64"`. -/
theorem profileForArch_amd64_cex :
    ("amd64" : String) ≠ "aarch64" ∧ ("amd64" : String) ≠ "x86_64" ∧
    (profileForArch "amd64").binary = "qemu-system-x86_64" ∧
    (profileForArch "amd64").binary ≠ "qemu-system-" ++ "amd64" ∧
    (profileForArch "amd64").biosCandidates ≠ [] := by
  decide

/-- C8 (amended): for every architecture not in
`{aarch64, x86_64, amd64}`, `profileForArch` yields the generic profile —
hypervisor binary named after the architecture and an empty
firmware-candidate list — so firmware selection chooses no path and no
`-bios` argument is appended. -/
theorem profileForArch_generic_fallback (arch : String) (pathExists : String → Bool)
    (h1 : arch ≠ "aarch64") (h2 : arch ≠ "x86_64") (h3 : arch ≠ "amd64") :
    profileForArch arch =
      { binary := "qemu-system-" ++ arch, machine := "virt", cpu := "host",
        biosCandidates := [] } ∧
    findFirstExisting pathExists (profileForArch arch).biosCandidates = "" ∧
    biosArgsFor pathExists (profileForArch arch) = [] := by
  have hp : profileForArch arch =
      { binary := "qemu-system-" ++ arch, machine := "virt", cpu := "host",
        biosCandidates := [] } := by
    simp [profileForArch, h1, h2, h3]
  exact ⟨hp, by simp [hp, findFirstExisting], by simp [biosArgsFor, hp, findFirstExisting]⟩

theorem profileForArch_generic_fallback_witness :
    ("riscv64" : String) ≠ "aarch64" ∧ ("riscv64" : String) ≠ "x86_64" ∧
    ("riscv64" : String) ≠ "amd64" ∧
    (profileForArch "riscv64" =
      { binary := "qemu-system-" ++ "riscv64", machine := "virt", cpu := "host",
        biosCandidates := [] } ∧
     findFirstExisting (fun _ => true) (profileForArch "riscv64").biosCandidates = "" ∧
     biosArgsFor (fun _ => true) (profileForArch "riscv64") = []) :=
  ⟨by decide, by decide, by decide,
   profileForArch_generic_fallback "riscv64" (fun _ => true)
     (by decide) (by decide) (by decide)⟩

/-- C4: `extractXZFast` surfaces an error exactly when the external `xz`
strategy is unavailable or fails, the external `unxz` strategy is
unavailable or fails, and the in-process Go decompressor also fails; and
whatever error it surfaces is the in-process strategy's error — failures
of the two external strategies are swallowed, never returned. -/
theorem extractXZFast_fallback_order (lookPath : String → Option String)
    (extOk : String → Bool) (goResult : Option String) :
    (extractXZFast lookPath extOk goResult = none ↔
      ((lookPath "xz").elim false extOk = true ∨
       (lookPath "unxz").elim false extOk = true ∨
       goResult = none)) ∧
    (extractXZFast lookPath extOk goResult = none ∨
     extractXZFast lookPath extOk goResult = goResult) := by
  unfold extractXZFast
  rcases h1 : lookPath "xz" with _ | xzp <;> rcases h2 : lookPath "unxz" with _ | uzp <;>
    simp [Option.elim] <;>
    (try cases hex : extOk xzp) <;>
    (try cases heu : extOk uzp) <;>
    simp_all

/-- C5: the key-generation gate of `main` generates a fresh key pair only
when the public key file is absent (the sole existence check); when it is
present, the filesystem is left untouched and the existing public-key
bytes are read back unchanged and used as-is. -/
theorem keygen_gate (fs : FS) (privPem pubLine b : List Nat)
    (h : fs sshPublicKeyPath = some b) :
    (ensureAndReadKey fs privPem pubLine).1 = fs ∧
    (ensureAndReadKey fs privPem pubLine).2 = some b := by
  constructor <;> simp [ensureAndReadKey, h]

theorem keygen_gate_witness :
    ((fun p => if p = sshPublicKeyPath then some [7] else none) : FS) sshPublicKeyPath
      = some [7] ∧
    ((ensureAndReadKey (fun p => if p = sshPublicKeyPath then some [7] else none) [1] [2]).1
       = (fun p => if p = sshPublicKeyPath then some [7] else none) ∧
     (ensureAndReadKey (fun p => if p = sshPublicKeyPath then some [7] else none) [1] [2]).2
       = some [7]) :=
  ⟨by simp, keygen_gate (fun p => if p = sshPublicKeyPath then some [7] else none)
    [1] [2] [7] (by simp)⟩

/-- C9: a failure of `ensureCoreOSImage` does abort `main` before any
hypervisor instance is spawned, but — contrary to the specified
fatal-error behavior — it exits with status 0 and reports nothing (the
bare `return` at main.go line 291), unlike every later fatal check, which
prints the error and exits with status 1 (shown here for the
missing-hypervisor check). -/
theorem main_acquisition_failure_silent :
    mainFlow ⟨true, false, false, false, false, false, false, false, false⟩
      = .exited 0 false ∧
    mainFlow ⟨false, false, false, false, false, false, false, false, true⟩
      = .exited 1 true := by
  decide

theorem toNat_ofNat_digit (m : Nat) (hm : m < 10) :
    (Char.ofNat (48 + m)).toNat = 48 + m := by
  interval_cases m <;> decide

theorem isDigit_ofNat_digit (m : Nat) (hm : m < 10) :
    isDigit (Char.ofNat (48 + m)) = true := by
  interval_cases m <;> decide

theorem foldl_natToDigitsAux (fuel : Nat) :
    ∀ n a : Nat, n ≤ fuel →
      (natToDigitsAux fuel n).foldl (fun x d => x * 10 + (d.toNat - 48)) a
        = a * 10 ^ (natToDigitsAux fuel n).length + n := by
  induction fuel with
  | zero =>
    intro n a h
    have hn : n = 0 := by omega
    subst hn
    simp [natToDigitsAux]
  | succ fuel ih =>
    intro n a h
    by_cases hn : n = 0
    · subst hn; simp [natToDigitsAux]
    · have hunf : natToDigitsAux (fuel + 1) n
          = natToDigitsAux fuel (n / 10) ++ [Char.ofNat (48 + n % 10)] := by
        rw [show natToDigitsAux (fuel + 1) n
            = if n = 0 then []
              else natToDigitsAux fuel (n / 10) ++ [Char.ofNat (48 + n % 10)] from rfl,
          if_neg hn]
      rw [hunf, List.foldl_append, ih (n / 10) a (by omega)]
      have h48 := toNat_ofNat_digit (n % 10) (by omega)
      simp only [List.foldl_cons, List.foldl_nil, List.length_append,
        List.length_cons, List.length_nil, h48]
      have hdrop : 48 + n % 10 - 48 = n % 10 := by omega
      rw [hdrop]
      have hmod : n / 10 * 10 + n % 10 = n := by omega
      calc (a * 10 ^ (natToDigitsAux fuel (n / 10)).length + n / 10) * 10 + n % 10
          = a * (10 ^ (natToDigitsAux fuel (n / 10)).length * 10)
            + (n / 10 * 10 + n % 10) := by ring
        _ = a * 10 ^ ((natToDigitsAux fuel (n / 10)).length + 1) + n := by
            rw [pow_succ, hmod]
        _ = a * 10 ^ ((natToDigitsAux fuel (n / 10)).length + (0 + 1)) + n := by
            rw [Nat.zero_add]

theorem natToDigitsAux_all (fuel : Nat) :
    ∀ n, (natToDigitsAux fuel n).all isDigit = true := by
  induction fuel with
  | zero => intro n; rfl
  | succ fuel ih =>
    intro n
    by_cases hn : n = 0
    · subst hn; rfl
    · rw [show natToDigitsAux (fuel + 1) n
          = if n = 0 then []
            else natToDigitsAux fuel (n / 10) ++ [Char.ofNat (48 + n % 10)] from rfl,
        if_neg hn, List.all_append]
      simp [ih (n / 10), isDigit_ofNat_digit (n % 10) (by omega)]

theorem natToDecimal_all (n : Nat) : (natToDecimal n).all isDigit = true := by
  unfold natToDecimal
  split
  · decide
  · exact natToDigitsAux_all (n + 1) n

theorem natToDecimal_ne_nil (n : Nat) : natToDecimal n ≠ [] := by
  unfold natToDecimal
  split
  · simp
  · next hn =>
    rw [show natToDigitsAux (n + 1) n
        = if n = 0 then []
          else natToDigitsAux n (n / 10) ++ [Char.ofNat (48 + n % 10)] from rfl,
      if_neg hn]
    simp

theorem natToDecimal_foldl (n : Nat) :
    (natToDecimal n).foldl (fun x d => x * 10 + (d.toNat - 48)) 0 = n := by
  unfold natToDecimal
  split
  · next hn => subst hn; decide
  · rw [foldl_natToDigitsAux (n + 1) n 0 (by omega)]
    simp

theorem goAtoi_neg (c : Char) (t : List Char)
    (hall : ((c :: t).all isDigit) = true)
    (hrange : ((c :: t).foldl (fun a d => a * 10 + (d.toNat - 48)) 0)
      ≤ 9223372036854775808) :
    goAtoi (String.mk ('-' :: c :: t))
      = some (-(((c :: t).foldl (fun a d => a * 10 + (d.toNat - 48)) 0 : Nat) : Int)) := by
  have hrange2 : List.foldl (fun a d => a * 10 + (d.toNat - 48)) (c.toNat - 48) t
      ≤ 9223372036854775808 := by simpa using hrange
  simp [goAtoi, hall, hrange, hrange2]

theorem goAtoi_pos (c : Char) (t : List Char) (hd : isDigit c = true)
    (hall : ((c :: t).all isDigit) = true)
    (hrange : ((c :: t).foldl (fun a d => a * 10 + (d.toNat - 48)) 0)
      ≤ 9223372036854775807) :
    goAtoi (String.mk (c :: t))
      = some (((c :: t).foldl (fun a d => a * 10 + (d.toNat - 48)) 0 : Nat) : Int) := by
  have hcp : c ≠ '+' := by intro hh; rw [hh] at hd; exact absurd hd (by decide)
  have hcm : c ≠ '-' := by intro hh; rw [hh] at hd; exact absurd hd (by decide)
  have hrange2 : List.foldl (fun a d => a * 10 + (d.toNat - 48)) (c.toNat - 48) t
      ≤ 9223372036854775807 := by simpa using hrange
  simp [goAtoi, hcp, hcm, hall, hrange, hrange2]

theorem goAtoi_strconvItoa (v : Int) (h1 : -9223372036854775808 ≤ v)
    (h2 : v ≤ 9223372036854775807) :
    goAtoi (strconvItoa v) = some v := by
  by_cases hv : v < 0
  · rcases hdec : natToDecimal v.natAbs with _ | ⟨c, t⟩
    · exact absurd hdec (natToDecimal_ne_nil _)
    · have hall : ((c :: t).all isDigit) = true := by
        rw [← hdec]; exact natToDecimal_all _
      have hfold : ((c :: t).foldl (fun a d => a * 10 + (d.toNat - 48)) 0)
          = v.natAbs := by
        rw [← hdec]; exact natToDecimal_foldl _
      unfold strconvItoa
      rw [if_pos hv, hdec, goAtoi_neg c t hall (by rw [hfold]; omega), hfold]
      simp only [Option.some.injEq]
      omega
  · rcases hdec : natToDecimal v.natAbs with _ | ⟨c, t⟩
    · exact absurd hdec (natToDecimal_ne_nil _)
    · have hall : ((c :: t).all isDigit) = true := by
        rw [← hdec]; exact natToDecimal_all _
      have hdig : isDigit c = true := by
        have := hall
        rw [List.all_cons, Bool.and_eq_true] at this
        exact this.1
      have hfold : ((c :: t).foldl (fun a d => a * 10 + (d.toNat - 48)) 0)
          = v.natAbs := by
        rw [← hdec]; exact natToDecimal_foldl _
      unfold strconvItoa
      rw [if_neg hv, hdec, goAtoi_pos c t hdig hall (by rw [hfold]; omega), hfold]
      simp only [Option.some.injEq]
      omega

/-- C6: port derivation as `calculatePort` and the instance loop of the
multi-instance `main.go` (embedded in src/SECURITY.md) perform it: for
every base-port string that `strconv.Atoi` parses to a value `B`, the
port derived for instance offset `i` is the decimal rendering of exactly
`B + i` (parsing the derived string back yields `B + i`); the six
configured base-port strings parse to their numeric values; and for `N`
instances whose base ports are pairwise equal or at least `N` apart, the
derived port sets of two distinct instances are disjoint. -/
theorem port_derivation_disjoint (bases : List String) (N i j : Nat)
    (hi : i < N) (hj : j < N) (hij : i ≠ j)
    (hok : ∀ b ∈ bases, ∃ v : Int, goAtoi b = some v ∧ 0 ≤ v ∧
      v + (N : Int) ≤ 9223372036854775807)
    (hsp : ∀ b1 ∈ bases, ∀ b2 ∈ bases, ∀ v1 v2 : Int, goAtoi b1 = some v1 →
      goAtoi b2 = some v2 →
      v1 = v2 ∨ v1 + (N : Int) ≤ v2 ∨ v2 + (N : Int) ≤ v1) :
    basePortStrings.map goAtoi
      = [some 2222, some 5900, some 2377, some 80, some 6443, some 9443] ∧
    (∀ b ∈ bases, ∀ v : Int, goAtoi b = some v →
      calculatePort b (i : Int) = some (strconvItoa (v + (i : Int))) ∧
      goAtoi (strconvItoa (v + (i : Int))) = some (v + (i : Int))) ∧
    (∀ s : String,
      some s ∈ instancePortSet bases (i : Int) →
      some s ∉ instancePortSet bases (j : Int)) := by
  refine ⟨by decide, ?_, ?_⟩
  · intro b hb v hv
    obtain ⟨v', hv', hge, hlt⟩ := hok b hb
    have hvv : v = v' := by
      rw [hv] at hv'
      exact Option.some.inj hv'
    subst hvv
    constructor
    · unfold calculatePort
      rw [hv]
      show some (strconvItoa (int64Wrap (v + (i : Int))))
          = some (strconvItoa (v + (i : Int)))
      rw [int64Wrap_eq_self (v + (i : Int)) (by omega) (by omega)]
    · exact goAtoi_strconvItoa _ (by omega) (by omega)
  · intro s hsi hsj
    simp only [instancePortSet, List.mem_map] at hsi hsj
    obtain ⟨b1, hb1, he1⟩ := hsi
    obtain ⟨b2, hb2, he2⟩ := hsj
    obtain ⟨v1, hv1, hge1, hlt1⟩ := hok b1 hb1
    obtain ⟨v2, hv2, hge2, hlt2⟩ := hok b2 hb2
    unfold calculatePort at he1 he2
    rw [hv1] at he1
    rw [hv2] at he2
    replace he1 : some (strconvItoa (int64Wrap (v1 + (i : Int)))) = some s := he1
    replace he2 : some (strconvItoa (int64Wrap (v2 + (j : Int)))) = some s := he2
    rw [int64Wrap_eq_self (v1 + (i : Int)) (by omega) (by omega)] at he1
    rw [int64Wrap_eq_self (v2 + (j : Int)) (by omega) (by omega)] at he2
    have hs1 : s = strconvItoa (v1 + (i : Int)) := (Option.some.inj he1).symm
    have hs2 : s = strconvItoa (v2 + (j : Int)) := (Option.some.inj he2).symm
    have hr1 : goAtoi s = some (v1 + (i : Int)) := by
      rw [hs1]; exact goAtoi_strconvItoa _ (by omega) (by omega)
    have hr2 : goAtoi s = some (v2 + (j : Int)) := by
      rw [hs2]; exact goAtoi_strconvItoa _ (by omega) (by omega)
    have heq : v1 + (i : Int) = v2 + (j : Int) := by
      rw [hr1] at hr2
      exact Option.some.inj hr2
    rcases hsp b1 hb1 b2 hb2 v1 v2 hv1 hv2 with h | h | h <;> omega

theorem port_derivation_disjoint_witness :
    (0 : Nat) < 2 ∧ (1 : Nat) < 2 ∧ (0 : Nat) ≠ 1 ∧
    (∀ b ∈ ["100", "200"], ∃ v : Int, goAtoi b = some v ∧ 0 ≤ v ∧
      v + ((2 : Nat) : Int) ≤ 9223372036854775807) ∧
    (∀ b1 ∈ ["100", "200"], ∀ b2 ∈ ["100", "200"], ∀ v1 v2 : Int,
      goAtoi b1 = some v1 → goAtoi b2 = some v2 →
      v1 = v2 ∨ v1 + ((2 : Nat) : Int) ≤ v2 ∨ v2 + ((2 : Nat) : Int) ≤ v1) ∧
    (basePortStrings.map goAtoi
       = [some 2222, some 5900, some 2377, some 80, some 6443, some 9443] ∧
     (∀ b ∈ ["100", "200"], ∀ v : Int, goAtoi b = some v →
       calculatePort b ((0 : Nat) : Int)
           = some (strconvItoa (v + ((0 : Nat) : Int))) ∧
       goAtoi (strconvItoa (v + ((0 : Nat) : Int)))
           = some (v + ((0 : Nat) : Int))) ∧
     (∀ s : String,
       some s ∈ instancePortSet ["100", "200"] ((0 : Nat) : Int) →
       some s ∉ instancePortSet ["100", "200"] ((1 : Nat) : Int))) :=
  ⟨by decide, by decide, by decide,
   by
     intro b hb
     simp only [List.mem_cons, List.mem_singleton] at hb
     rcases hb with rfl | rfl | hb
     · exact ⟨100, by decide, by decide, by decide⟩
     · exact ⟨200, by decide, by decide, by decide⟩
     · exact absurd hb (List.not_mem_nil b),
   by
     intro b1 hb1 b2 hb2 v1 v2 h1 h2
     have e1 : goAtoi "100" = some (100 : Int) := by decide
     have e2 : goAtoi "200" = some (200 : Int) := by decide
     simp only [List.mem_cons, List.mem_singleton, List.not_mem_nil, or_false] at hb1 hb2
     rcases hb1 with rfl | rfl <;> rcases hb2 with rfl | rfl <;>
       simp only [e1, e2, Option.some.injEq] at h1 h2 <;> omega,
   port_derivation_disjoint ["100", "200"] 2 0 1 (by decide) (by decide) (by decide)
     (by
       intro b hb
       simp only [List.mem_cons, List.mem_singleton] at hb
       rcases hb with rfl | rfl | hb
       · exact ⟨100, by decide, by decide, by decide⟩
       · exact ⟨200, by decide, by decide, by decide⟩
       · exact absurd hb (List.not_mem_nil b))
     (by
       intro b1 hb1 b2 hb2 v1 v2 h1 h2
       have e1 : goAtoi "100" = some (100 : Int) := by decide
       have e2 : goAtoi "200" = some (200 : Int) := by decide
       simp only [List.mem_cons, List.mem_singleton, List.not_mem_nil, or_false] at hb1 hb2
       rcases hb1 with rfl | rfl <;> rcases hb2 with rfl | rfl <;>
         simp only [e1, e2, Option.some.injEq] at h1 h2 <;> omega)⟩

theorem tmpName_ne (dstPath suffix : String) : tmpName dstPath suffix ≠ dstPath := by
  intro h
  have hlen := congrArg String.length h
  have h5 : (".tmp-" : String).length = 5 := rfl
  simp [tmpName, String.length_append, h5] at hlen
  omega

/-- C1: in both extraction paths — external decompressor and in-process
fallback — every filesystem state the extraction passes through, whatever
step it fails or is interrupted at, shows at the canonical target path
either its original contents or the complete decompressed output
installed by the final rename: no partially written file is ever visible
there. -/
theorem extract_atomic_target (fs : FS) (srcPath dstPath suffix : String)
    (out : List Nat) (er : ExtXZRun) (gr : GoXZRun)
    (he : er.copyOk = true → er.waitOk = true → er.copied = out)
    (hg : gr.copyOk = true → gr.copied = out) :
    (∀ st ∈ extractWithExternalXZtrace fs dstPath suffix er,
       st dstPath = fs dstPath ∨ st dstPath = some out) ∧
    (∀ st ∈ extractWithGoXZtrace fs srcPath dstPath suffix gr,
       st dstPath = fs dstPath ∨ st dstPath = some out) := by
  have hne : ¬ dstPath = tmpName dstPath suffix :=
    fun h => tmpName_ne dstPath suffix h.symm
  constructor
  · intro st hst
    rcases er with ⟨p1, p2, p3, cp, c1, w1, y1, cl1, rn⟩
    simp only at he
    unfold extractWithExternalXZtrace at hst
    cases p1 <;> cases p2 <;> cases p3 <;> cases c1 <;> cases w1 <;> cases y1 <;>
      cases cl1 <;> cases rn <;>
      simp_all [fsWrite, fsRemove, fsRename, List.mem_cons, hne] <;>
      rcases hst with rfl | rfl | rfl | rfl | rfl <;>
      simp [fsWrite, fsRemove, fsRename, hne]
  · intro st hst
    rcases gr with ⟨g1, g2, cp, c1, y1, cl1, rn⟩
    simp only at hg
    unfold extractWithGoXZtrace at hst
    rcases hsrc : fs srcPath with _ | srcBytes <;>
      cases g1 <;> cases g2 <;> cases c1 <;> cases y1 <;> cases cl1 <;> cases rn <;>
      simp_all [fsWrite, fsRemove, fsRename, List.mem_cons, hne] <;>
      rcases hst with rfl | rfl | rfl | rfl | rfl <;>
      simp [fsWrite, fsRemove, fsRename, hne]

theorem extract_atomic_target_witness :
    ((⟨true, true, true, [9, 9], true, true, true, true, true⟩ : ExtXZRun).copyOk = true →
       (⟨true, true, true, [9, 9], true, true, true, true, true⟩ : ExtXZRun).waitOk = true →
       (⟨true, true, true, [9, 9], true, true, true, true, true⟩ : ExtXZRun).copied = [9, 9]) ∧
    ((⟨true, true, [9, 9], true, true, true, true⟩ : GoXZRun).copyOk = true →
       (⟨true, true, [9, 9], true, true, true, true⟩ : GoXZRun).copied = [9, 9]) ∧
    ((∀ st ∈ extractWithExternalXZtrace (fun _ => none) "images/a.qcow2" "x1"
         ⟨true, true, true, [9, 9], true, true, true, true, true⟩,
       st "images/a.qcow2" = (fun (_ : String) => (none : Option (List Nat))) "images/a.qcow2" ∨
       st "images/a.qcow2" = some [9, 9]) ∧
     (∀ st ∈ extractWithGoXZtrace (fun _ => none) "images/a.xz" "images/a.qcow2" "x1"
         ⟨true, true, [9, 9], true, true, true, true⟩,
       st "images/a.qcow2" = (fun (_ : String) => (none : Option (List Nat))) "images/a.qcow2" ∨
       st "images/a.qcow2" = some [9, 9])) :=
  ⟨fun _ _ => rfl, fun _ => rfl,
   extract_atomic_target (fun _ => none) "images/a.xz" "images/a.qcow2" "x1" [9, 9]
     ⟨true, true, true, [9, 9], true, true, true, true, true⟩
     ⟨true, true, [9, 9], true, true, true, true⟩
     (fun _ _ => rfl) (fun _ => rfl)⟩

theorem vmsFileName_ne_imagesFileName (root version arch : String) :
    vmsFileName root version arch ≠ imagesFileName root version arch := by
  intro h
  have hlen := congrArg String.length h
  have e1 : ("/vms/coreos-" : String).length = 12 := rfl
  have e2 : ("/images/coreos-" : String).length = 15 := rfl
  have e3 : ("-" : String).length = 1 := rfl
  have e4 : (".xz" : String).length = 3 := rfl
  simp [vmsFileName, imagesFileName, String.length_append, e1, e2, e3, e4] at hlen

theorem vmsFileName_ne_qcow2FileName (root version arch : String) :
    vmsFileName root version arch ≠ qcow2FileName root version arch := by
  intro h
  have hlen := congrArg String.length h
  have e1 : ("/vms/coreos-" : String).length = 12 := rfl
  have e2 : ("/images/coreos-" : String).length = 15 := rfl
  have e3 : ("-" : String).length = 1 := rfl
  have e4 : (".xz" : String).length = 3 := rfl
  have e5 : ("-qemu." : String).length = 6 := rfl
  have e6 : (".qcow2" : String).length = 6 := rfl
  simp [vmsFileName, qcow2FileName, String.length_append, e1, e2, e3, e4, e5, e6] at hlen
  omega

theorem imagesFileName_ne_qcow2FileName (root version arch : String) :
    imagesFileName root version arch ≠ qcow2FileName root version arch := by
  intro h
  have hlen := congrArg String.length h
  have e2 : ("/images/coreos-" : String).length = 15 := rfl
  have e3 : ("-" : String).length = 1 := rfl
  have e4 : (".xz" : String).length = 3 := rfl
  have e5 : ("-qemu." : String).length = 6 := rfl
  have e6 : (".qcow2" : String).length = 6 := rfl
  simp [imagesFileName, qcow2FileName, String.length_append, e2, e3, e4, e5, e6] at hlen
  omega

theorem ensure_cached_noop (remote : Option (List Nat)) (s200 eok : Bool)
    (out : List Nat) (root version arch : String) (w : World) (b bi : List Nat)
    (hv : w.fs (vmsFileName root version arch) = some b)
    (hi : w.fs (imagesFileName root version arch) = some bi)
    (hlen : bi.length = b.length)
    (hq : (w.fs (qcow2FileName root version arch)).isSome = true) :
    ensureCoreOSImage remote s200 eok out root version arch w = (w, true) := by
  rcases hqv : w.fs (qcow2FileName root version arch) with _ | qb
  · rw [hqv] at hq; simp at hq
  · unfold ensureCoreOSImage linkOrCopy
    simp [hv, hi, hlen, hqv]

theorem ensure_download_step (body out : List Nat) (eok : Bool)
    (root version arch : String) (w : World)
    (hv : w.fs (vmsFileName root version arch) = none) :
    ensureCoreOSImage (some body) true eok out root version arch w =
    ensureCoreOSImage (some body) true eok out root version arch
      { w with fs := fsWrite w.fs (vmsFileName root version arch) body,
               httpGets := w.httpGets + 1 } := by
  unfold ensureCoreOSImage
  simp [hv, fsWrite]

theorem ensure_cached_success_state (remote : Option (List Nat)) (s200 eok : Bool)
    (out : List Nat) (root version arch : String) (w : World) (B : List Nat)
    (hv : w.fs (vmsFileName root version arch) = some B)
    (h : (ensureCoreOSImage remote s200 eok out root version arch w).2 = true) :
    ∃ b bi,
      (ensureCoreOSImage remote s200 eok out root version arch w).1.fs
          (vmsFileName root version arch) = some b ∧
      (ensureCoreOSImage remote s200 eok out root version arch w).1.fs
          (imagesFileName root version arch) = some bi ∧
      bi.length = b.length ∧
      ((ensureCoreOSImage remote s200 eok out root version arch w).1.fs
          (qcow2FileName root version arch)).isSome = true := by
  have hvi := vmsFileName_ne_imagesFileName root version arch
  have hvq := vmsFileName_ne_qcow2FileName root version arch
  have hiq := imagesFileName_ne_qcow2FileName root version arch
  unfold ensureCoreOSImage linkOrCopy at h ⊢
  rcases hi : w.fs (imagesFileName root version arch) with _ | bi <;>
    rcases hq : w.fs (qcow2FileName root version arch) with _ | qb <;>
    cases eok <;>
    simp_all [fsWrite, fsRemove, Ne.symm hvi, Ne.symm hvq, Ne.symm hiq, hvi, hvq, hiq] <;>
    split_ifs <;>
    simp_all [fsWrite, fsRemove, Option.isSome_iff_ne_none,
      Ne.symm hvi, Ne.symm hvq, Ne.symm hiq]

theorem linkOrCopy_preserves (fs : FS) (src dst q : String) (hq : q ≠ dst) :
    (linkOrCopy fs src dst).1 q = fs q := by
  unfold linkOrCopy
  rcases hd : fs dst with _ | d <;> rcases hs : fs src with _ | s <;>
    simp [hd, hs, fsWrite, fsRemove, hq] <;> split_ifs <;>
    simp [hd, hs, fsWrite, fsRemove, hq]

theorem ensure_counters_cached (remote : Option (List Nat)) (s200 eok : Bool)
    (out : List Nat) (root version arch : String) (w : World) (B : List Nat)
    (hv : w.fs (vmsFileName root version arch) = some B) :
    (ensureCoreOSImage remote s200 eok out root version arch w).1.httpGets = w.httpGets ∧
    ((w.fs (qcow2FileName root version arch)).isSome = true →
      (ensureCoreOSImage remote s200 eok out root version arch w).1.extracts = w.extracts) := by
  have hiq := imagesFileName_ne_qcow2FileName root version arch
  unfold ensureCoreOSImage
  rcases hlc : linkOrCopy w.fs (vmsFileName root version arch)
      (imagesFileName root version arch) with ⟨fs2, ok2⟩
  have hfs2 : fs2 (qcow2FileName root version arch)
      = w.fs (qcow2FileName root version arch) := by
    have hp := linkOrCopy_preserves w.fs (vmsFileName root version arch)
      (imagesFileName root version arch) (qcow2FileName root version arch) (Ne.symm hiq)
    rw [hlc] at hp; exact hp
  cases ok2 <;> cases eok <;>
    rcases hq : w.fs (qcow2FileName root version arch) with _ | qb <;>
    simp_all [hv, hlc, hfs2]

theorem ensure_success_state (remote : Option (List Nat)) (s200 eok : Bool)
    (out : List Nat) (root version arch : String) (w : World)
    (h : (ensureCoreOSImage remote s200 eok out root version arch w).2 = true) :
    ∃ b bi,
      (ensureCoreOSImage remote s200 eok out root version arch w).1.fs
          (vmsFileName root version arch) = some b ∧
      (ensureCoreOSImage remote s200 eok out root version arch w).1.fs
          (imagesFileName root version arch) = some bi ∧
      bi.length = b.length ∧
      ((ensureCoreOSImage remote s200 eok out root version arch w).1.fs
          (qcow2FileName root version arch)).isSome = true := by
  rcases hv : w.fs (vmsFileName root version arch) with _ | B
  · rcases remote with _ | body
    · exfalso; unfold ensureCoreOSImage at h; simp [hv] at h
    · cases s200
      · exfalso; unfold ensureCoreOSImage at h; simp [hv] at h
      · rw [ensure_download_step body out eok root version arch w hv] at h ⊢
        exact ensure_cached_success_state (some body) true eok out root version arch
          _ body (by simp [fsWrite]) h
  · exact ensure_cached_success_state remote s200 eok out root version arch w B hv h

/-- C2: if an acquisition run succeeds, a second acquisition run for the
same (version, architecture) — under any network and decompressor
environment whatever — returns the same world unchanged and succeeds: it
issues no HTTP request, runs no extraction, and touches no file.
Moreover the first run downloads exactly once when the compressed cache
file was absent, downloads zero times when it was present, and extracts
only when the decompressed target was absent. -/
theorem ensureCoreOSImage_idempotent
    (remote remote2 : Option (List Nat)) (s200 s2002 eok eok2 : Bool)
    (out out2 : List Nat) (root version arch : String) (w0 : World)
    (h : (ensureCoreOSImage remote s200 eok out root version arch w0).2 = true) :
    ensureCoreOSImage remote2 s2002 eok2 out2 root version arch
        (ensureCoreOSImage remote s200 eok out root version arch w0).1 =
      ((ensureCoreOSImage remote s200 eok out root version arch w0).1, true) ∧
    ((w0.fs (vmsFileName root version arch)).isSome = true →
       (ensureCoreOSImage remote s200 eok out root version arch w0).1.httpGets
         = w0.httpGets) ∧
    (w0.fs (vmsFileName root version arch) = none →
       (ensureCoreOSImage remote s200 eok out root version arch w0).1.httpGets
         = w0.httpGets + 1) ∧
    ((w0.fs (qcow2FileName root version arch)).isSome = true →
       (ensureCoreOSImage remote s200 eok out root version arch w0).1.extracts
         = w0.extracts) := by
  have hvq := vmsFileName_ne_qcow2FileName root version arch
  refine ⟨?_, ?_, ?_, ?_⟩
  · obtain ⟨b, bi, h1, h2, h3, h4⟩ :=
      ensure_success_state remote s200 eok out root version arch w0 h
    exact ensure_cached_noop remote2 s2002 eok2 out2 root version arch _ b bi h1 h2 h3 h4
  · intro hv
    rcases hv' : w0.fs (vmsFileName root version arch) with _ | B
    · rw [hv'] at hv; simp at hv
    · exact (ensure_counters_cached remote s200 eok out root version arch w0 B hv').1
  · intro hv
    rcases remote with _ | body
    · unfold ensureCoreOSImage; simp [hv]
    · cases s200
      · unfold ensureCoreOSImage; simp [hv]
      · rw [ensure_download_step body out eok root version arch w0 hv]
        rw [(ensure_counters_cached (some body) true eok out root version arch
          _ body (by simp [fsWrite])).1]
  · intro hq
    rcases hv' : w0.fs (vmsFileName root version arch) with _ | B
    · rcases remote with _ | body
      · unfold ensureCoreOSImage; simp [hv']
      · cases s200
        · unfold ensureCoreOSImage; simp [hv']
        · rw [ensure_download_step body out eok root version arch w0 hv']
          rw [(ensure_counters_cached (some body) true eok out root version arch
            _ body (by simp [fsWrite])).2 (by simp [fsWrite, Ne.symm hvq]; exact hq)]
    · exact (ensure_counters_cached remote s200 eok out root version arch w0 B hv').2 hq

theorem ensureCoreOSImage_idempotent_witness :
    (ensureCoreOSImage (some [3, 4]) true true [5] "r" "v" "a"
        ⟨fun _ => none, 0, 0⟩).2 = true ∧
    (ensureCoreOSImage none false false [9] "r" "v" "a"
        (ensureCoreOSImage (some [3, 4]) true true [5] "r" "v" "a"
          ⟨fun _ => none, 0, 0⟩).1 =
      ((ensureCoreOSImage (some [3, 4]) true true [5] "r" "v" "a"
          ⟨fun _ => none, 0, 0⟩).1, true) ∧
     (((⟨fun _ => none, 0, 0⟩ : World).fs (vmsFileName "r" "v" "a")).isSome = true →
        (ensureCoreOSImage (some [3, 4]) true true [5] "r" "v" "a"
          ⟨fun _ => none, 0, 0⟩).1.httpGets = 0) ∧
     ((⟨fun _ => none, 0, 0⟩ : World).fs (vmsFileName "r" "v" "a") = none →
        (ensureCoreOSImage (some [3, 4]) true true [5] "r" "v" "a"
          ⟨fun _ => none, 0, 0⟩).1.httpGets = 0 + 1) ∧
     (((⟨fun _ => none, 0, 0⟩ : World).fs (qcow2FileName "r" "v" "a")).isSome = true →
        (ensureCoreOSImage (some [3, 4]) true true [5] "r" "v" "a"
          ⟨fun _ => none, 0, 0⟩).1.extracts = 0)) :=
  ⟨rfl, ensureCoreOSImage_idempotent (some [3, 4]) none true false true false [5] [9]
    "r" "v" "a" ⟨fun _ => none, 0, 0⟩ rfl⟩

theorem strMk_data (s : String) : String.mk s.data = s := rfl

theorem parseStrBody_escape (c : Char) (h : goodChar c = true) (rest : List Char) :
    parseStrBody (escapeChar c ++ rest) =
      (parseStrBody rest).map (fun p => (c :: p.1, p.2)) := by
  simp only [goodChar, Bool.or_eq_true, Bool.and_eq_true, decide_eq_true_eq] at h
  rcases h with ((⟨h32, h127⟩ | hc) | hc) | hc
  · by_cases h1 : c = '"'
    · subst h1
      rw [show escapeChar '"' ++ rest = '\\' :: '"' :: rest from rfl, parseStrBody.eq_def]
      simp
    · by_cases h2 : c = '\\'
      · subst h2
        rw [show escapeChar '\\' ++ rest = '\\' :: '\\' :: rest from rfl,
          parseStrBody.eq_def]
        simp
      · by_cases h6 : c = '<'
        · subst h6
          rw [show escapeChar '<' ++ rest
              = '\\' :: 'u' :: '0' :: '0' :: '3' :: 'c' :: rest from rfl,
            parseStrBody.eq_def]
          simp [hexVal]
        · by_cases h7 : c = '>'
          · subst h7
            rw [show escapeChar '>' ++ rest
                = '\\' :: 'u' :: '0' :: '0' :: '3' :: 'e' :: rest from rfl,
              parseStrBody.eq_def]
            simp [hexVal]
          · by_cases h8 : c = '&'
            · subst h8
              rw [show escapeChar '&' ++ rest
                  = '\\' :: 'u' :: '0' :: '0' :: '2' :: '6' :: rest from rfl,
                parseStrBody.eq_def]
              simp [hexVal]
            · have hn : c ≠ '\n' := by
                intro hh; rw [hh] at h32; exact absurd h32 (by decide)
              have hr : c ≠ '\r' := by
                intro hh; rw [hh] at h32; exact absurd h32 (by decide)
              have ht : c ≠ '\t' := by
                intro hh; rw [hh] at h32; exact absurd h32 (by decide)
              have hlit : escapeChar c = [c] := by
                unfold escapeChar
                simp [h1, h2, h6, h7, h8, hn, hr, ht,
                  show ¬(c.toNat < 32) by omega,
                  show ¬(c.toNat = 8232 ∨ c.toNat = 8233) by omega]
              rw [hlit, show ([c] : List Char) ++ rest = c :: rest from rfl,
                parseStrBody.eq_def]
              simp [h1, h2, h32]
  · subst hc
    rw [show escapeChar '\n' ++ rest = '\\' :: 'n' :: rest from rfl, parseStrBody.eq_def]
    simp
  · subst hc
    rw [show escapeChar '\r' ++ rest = '\\' :: 'r' :: rest from rfl, parseStrBody.eq_def]
    simp
  · subst hc
    rw [show escapeChar '\t' ++ rest = '\\' :: 't' :: rest from rfl, parseStrBody.eq_def]
    simp

theorem parseStrBody_escList (l : List Char) (h : l.all goodChar = true)
    (rest : List Char) :
    parseStrBody (escList l ++ '"' :: rest) = some (l, rest) := by
  induction l with
  | nil =>
    rw [show escList [] ++ '"' :: rest = '"' :: rest from rfl, parseStrBody.eq_def]
    simp
  | cons c t ih =>
    simp only [List.all_cons, Bool.and_eq_true] at h
    have hsplit : escList (c :: t) ++ '"' :: rest
        = escapeChar c ++ (escList t ++ '"' :: rest) := by
      simp [escList, List.append_assoc]
    rw [hsplit, parseStrBody_escape c h.1, ih h.2]
    rfl

theorem printJ_length_pos (v : JVal) : 1 ≤ (printJ v).length := by
  cases v with
  | jstr s => simp [printJ, printStr]
  | jbool b => cases b <;> simp [printJ]
  | jarr it => cases it <;> simp [printJ]
  | jobj fi => cases fi <;> simp [printJ]

theorem printStr_length_ge_two (s : String) : 2 ≤ (printStr s).length := by
  simp [printStr]

theorem printJ_cons_head (v : JVal) : ∃ c l, printJ v = c :: l ∧ c ≠ ']' := by
  cases v with
  | jstr s => exact ⟨'"', _, rfl, by decide⟩
  | jbool b => cases b
                 <;> [exact ⟨'f', _, rfl, by decide⟩; exact ⟨'t', _, rfl, by decide⟩]
  | jarr it => cases it <;> exact ⟨'[', _, rfl, by decide⟩
  | jobj fi => cases fi <;> exact ⟨lbraceChar, _, rfl, by decide⟩

theorem parseJ_quote (fuel : Nat) (l : List Char) :
    parseJ (fuel + 1) ('"' :: l) =
      (parseStrBody l).map (fun p => (JVal.jstr (String.mk p.1), p.2)) := rfl

theorem parseJ_arr_cons (fuel : Nat) (c : Char) (l : List Char) (hc : c ≠ ']') :
    parseJ (fuel + 1) ('[' :: c :: l) =
      (parseItems fuel (c :: l)).map (fun p => (JVal.jarr p.1, p.2)) := by
  have hstep : parseJ (fuel + 1) ('[' :: c :: l) =
      match c :: l with
      | ']' :: r => some (.jarr .nil, r)
      | _ => (parseItems fuel (c :: l)).map (fun p => (JVal.jarr p.1, p.2)) := rfl
  rw [hstep]
  split
  · next r heq =>
    exfalso
    exact hc (List.head_eq_of_cons_eq heq)
  · rfl

theorem parseJ_obj_cons (fuel : Nat) (c : Char) (l : List Char)
    (hc : c ≠ rbraceChar) :
    parseJ (fuel + 1) (lbraceChar :: c :: l) =
      (parseFields fuel (c :: l)).map (fun p => (JVal.jobj p.1, p.2)) := by
  have hstep : parseJ (fuel + 1) (lbraceChar :: c :: l) =
      if c = rbraceChar then some (.jobj .nil, l)
      else (parseFields fuel (c :: l)).map (fun p => (JVal.jobj p.1, p.2)) := rfl
  rw [hstep, if_neg hc]

theorem parseItems_succ (fuel : Nat) (l : List Char) :
    parseItems (fuel + 1) l =
      match parseJ fuel l with
      | none => none
      | some (v, r) =>
        match r with
        | ',' :: r2 => (parseItems fuel r2).map (fun p => (JItems.cons v p.1, p.2))
        | ']' :: r2 => some (JItems.cons v .nil, r2)
        | _ => none := rfl

theorem parseFields_quote (fuel : Nat) (l : List Char) :
    parseFields (fuel + 1) ('"' :: l) =
      match parseStrBody l with
      | none => none
      | some (k, r) =>
        match r with
        | ':' :: r2 =>
          match parseJ fuel r2 with
          | none => none
          | some (v, r3) =>
            match r3 with
            | ',' :: r4 =>
              (parseFields fuel r4).map
                (fun p => (JFields.cons (String.mk k) v p.1, p.2))
            | c2 :: r4 =>
              if c2 = rbraceChar then some (JFields.cons (String.mk k) v .nil, r4)
              else none
            | [] => none
        | _ => none := rfl

theorem parseFields_key (fuel : Nat) (k : String) (hk : goodStr k = true)
    (R : List Char) :
    parseFields (fuel + 1) (printStr k ++ ':' :: R) =
      match parseJ fuel R with
      | none => none
      | some (v, r3) =>
        match r3 with
        | ',' :: r4 => (parseFields fuel r4).map (fun p => (JFields.cons k v p.1, p.2))
        | c2 :: r4 => if c2 = rbraceChar then some (JFields.cons k v .nil, r4) else none
        | [] => none := by
  have hp : printStr k ++ ':' :: R = '"' :: (escList k.data ++ '"' :: (':' :: R)) := by
    simp [printStr, List.append_assoc]
  rw [hp, parseFields_quote, parseStrBody_escList k.data hk]
  rfl

theorem parse_print (fuel : Nat) :
    (∀ v rest, goodJ v = true → (printJ v).length ≤ fuel →
      parseJ fuel (printJ v ++ rest) = some (v, rest)) ∧
    (∀ v t rest, goodJ v = true → goodItems t = true →
      (printJ v).length + (printItemsTail t).length + 1 ≤ fuel →
      parseItems fuel (printJ v ++ (printItemsTail t ++ ']' :: rest))
        = some (.cons v t, rest)) ∧
    (∀ k v t rest, goodStr k = true → goodJ v = true → goodFields t = true →
      (printStr k).length + 1 + (printJ v).length + (printFieldsTail t).length + 1
          ≤ fuel →
      parseFields fuel
          (printStr k ++ ':' :: (printJ v ++ (printFieldsTail t ++ rbraceChar :: rest)))
        = some (.cons k v t, rest)) := by
  induction fuel with
  | zero =>
    refine ⟨fun v rest _ hl => absurd hl ?_,
      fun v t rest _ _ hl => absurd hl (by omega),
      fun k v t rest _ _ _ hl => absurd hl (by omega)⟩
    have := printJ_length_pos v
    omega
  | succ fuel ih =>
    obtain ⟨ih1, ih2, ih3⟩ := ih
    refine ⟨?_, ?_, ?_⟩
    · intro v rest hg hl
      cases v with
      | jstr s =>
        have hp : printJ (JVal.jstr s) ++ rest
            = '"' :: (escList s.data ++ '"' :: rest) := by
          simp [printJ, printStr]
        rw [hp, parseJ_quote, parseStrBody_escList s.data hg rest]
        rfl
      | jbool b => cases b <;> rfl
      | jarr it =>
        cases it with
        | nil => rfl
        | cons v t =>
          have hgs : goodJ v = true ∧ goodItems t = true := by
            have h2 : (goodJ v && goodItems t) = true := hg
            simpa [Bool.and_eq_true] using h2
          obtain ⟨c, l, hcl, hcne⟩ := printJ_cons_head v
          have hp : printJ (JVal.jarr (JItems.cons v t)) ++ rest
              = '[' :: c :: (l ++ (printItemsTail t ++ ']' :: rest)) := by
            simp [printJ, hcl, List.append_assoc]
          rw [hp, parseJ_arr_cons fuel c _ hcne]
          have hback : c :: (l ++ (printItemsTail t ++ ']' :: rest))
              = printJ v ++ (printItemsTail t ++ ']' :: rest) := by
            rw [hcl]; rfl
          rw [hback, ih2 v t rest hgs.1 hgs.2 ?lenac]
          · rfl
          case lenac =>
            have hle : (printJ (JVal.jarr (JItems.cons v t))).length
                = (printJ v).length + (printItemsTail t).length + 2 := by
              simp [printJ, List.length_append]
              all_goals omega
            omega
      | jobj fi =>
        cases fi with
        | nil => rfl
        | cons k v t =>
          have hgs : goodStr k = true ∧ goodJ v = true ∧ goodFields t = true := by
            have h2 : (goodStr k && goodJ v && goodFields t) = true := hg
            simpa [Bool.and_eq_true, and_assoc] using h2
          have hp : printJ (JVal.jobj (JFields.cons k v t)) ++ rest
              = lbraceChar :: '"' ::
                  (escList k.data ++
                    ('"' :: ':' ::
                      (printJ v ++ (printFieldsTail t ++ rbraceChar :: rest)))) := by
            simp [printJ, printStr, List.append_assoc]
          rw [hp, parseJ_obj_cons fuel '"' _ (by decide)]
          have hback : ('"' ::
              (escList k.data ++
                ('"' :: ':' ::
                  (printJ v ++ (printFieldsTail t ++ rbraceChar :: rest)))) : List Char)
              = printStr k ++ ':' :: (printJ v ++ (printFieldsTail t ++ rbraceChar :: rest)) := by
            simp [printStr, List.append_assoc]
          rw [hback, ih3 k v t rest hgs.1 hgs.2.1 hgs.2.2 ?lenob]
          · rfl
          case lenob =>
            have hle : (printJ (JVal.jobj (JFields.cons k v t))).length
                = (printStr k).length + 1 + (printJ v).length
                  + (printFieldsTail t).length + 2 := by
              simp [printJ, List.length_append]
              all_goals omega
            omega
    · intro v t rest hgv hgt hl
      have hlv := printJ_length_pos v
      rw [parseItems_succ, ih1 v _ hgv (by omega)]
      cases t with
      | nil => rfl
      | cons v2 t2 =>
        have hgs : goodJ v2 = true ∧ goodItems t2 = true := by
          have h2 : (goodJ v2 && goodItems t2) = true := hgt
          simpa [Bool.and_eq_true] using h2
        have hstep : printItemsTail (JItems.cons v2 t2) ++ ']' :: rest
            = ',' :: (printJ v2 ++ (printItemsTail t2 ++ ']' :: rest)) := by
          simp [printItemsTail, List.append_assoc]
        rw [hstep]
        show (parseItems fuel (printJ v2 ++ (printItemsTail t2 ++ ']' :: rest))).map
            (fun p => (JItems.cons v p.1, p.2))
          = some (JItems.cons v (JItems.cons v2 t2), rest)
        rw [ih2 v2 t2 rest hgs.1 hgs.2 ?lenit]
        · rfl
        case lenit =>
          have hle : (printItemsTail (JItems.cons v2 t2)).length
              = (printJ v2).length + (printItemsTail t2).length + 1 := by
            simp [printItemsTail, List.length_append]
            all_goals omega
          omega
    · intro k v t rest hk hv ht hl
      have hstr2 := printStr_length_ge_two k
      have hlv := printJ_length_pos v
      rw [parseFields_key fuel k hk, ih1 v _ hv (by omega)]
      cases t with
      | nil => rfl
      | cons k2 v2 t2 =>
        have hgs : goodStr k2 = true ∧ goodJ v2 = true ∧ goodFields t2 = true := by
          have h2 : (goodStr k2 && goodJ v2 && goodFields t2) = true := ht
          simpa [Bool.and_eq_true, and_assoc] using h2
        have hstep : printFieldsTail (JFields.cons k2 v2 t2) ++ rbraceChar :: rest
            = ',' :: (printStr k2 ++ ':' ::
                (printJ v2 ++ (printFieldsTail t2 ++ rbraceChar :: rest))) := by
          simp [printFieldsTail, List.append_assoc]
        rw [hstep]
        show (parseFields fuel
              (printStr k2 ++ ':' ::
                (printJ v2 ++ (printFieldsTail t2 ++ rbraceChar :: rest)))).map
            (fun p => (JFields.cons k v p.1, p.2))
          = some (JFields.cons k v (JFields.cons k2 v2 t2), rest)
        rw [ih3 k2 v2 t2 rest hgs.1 hgs.2.1 hgs.2.2 ?lenfi]
        · rfl
        case lenfi =>
          have hle : (printFieldsTail (JFields.cons k2 v2 t2)).length
              = (printStr k2).length + 1 + (printJ v2).length
                + (printFieldsTail t2).length + 1 := by
            simp [printFieldsTail, List.length_append]
            all_goals omega
          omega

theorem all_dropWhile (p q : Char → Bool) :
    ∀ l : List Char, l.all q = true → (l.dropWhile p).all q = true := by
  intro l
  induction l with
  | nil => intro _; simp
  | cons c t ih =>
    intro h
    simp only [List.all_cons, Bool.and_eq_true] at h
    rw [List.dropWhile_cons]
    split
    · exact ih h.2
    · simp [List.all_cons, h.1, h.2]

theorem goodStr_goTrimSpace (s : String) (h : goodStr s = true) :
    goodStr (goTrimSpace s) = true := by
  unfold goodStr at h ⊢
  unfold goTrimSpace
  show (((s.data.dropWhile goIsSpace).reverse.dropWhile goIsSpace).reverse).all goodChar
      = true
  rw [List.all_reverse]
  apply all_dropWhile
  rw [List.all_reverse]
  exact all_dropWhile _ _ _ h

set_option maxRecDepth 8192 in
theorem goodJ_encoded (key : String) (h : goodStr key = true) :
    goodJ (encodeIgnitionConfig (ignitionConfigFor key)) = true := by
  have ht := goodStr_goTrimSpace key h
  show (goodStr "ignition" &&
        (goodStr "version" && goodStr "3.4.0" && true) &&
        (goodStr "passwd" &&
          (goodStr "users" &&
            (goodStr "name" && goodStr "core" &&
              (goodStr "sshAuthorizedKeys" &&
                (goodStr (goTrimSpace key) && true) && true) && true) && true) &&
          (goodStr "systemd" &&
            (goodStr "units" &&
              (goodStr "name" && goodStr "docker-setup.service" &&
                (goodStr "enabled" && true &&
                  (goodStr "contents" && goodStr dockerServiceContents && true)) &&
                (goodStr "name" && goodStr "docker-tcp-proxy.service" &&
                  (goodStr "enabled" && true &&
                    (goodStr "contents" && goodStr dockerTcpServiceContents && true)) &&
                  (goodStr "name" && goodStr "disable-zincati.service" &&
                    (goodStr "enabled" && true &&
                      (goodStr "contents" && goodStr disableZincatiServiceContents
                        && true)) &&
                    (goodStr "name" && goodStr "setup-linger-core.service" &&
                      (goodStr "enabled" && true &&
                        (goodStr "contents" && goodStr setupLinger && true)) &&
                      true)))) && true) && true))) = true
  rw [ht]
  decide

set_option maxRecDepth 8192 in
theorem decode_encode (key : String) :
    decodeIgnitionConfig (encodeIgnitionConfig (ignitionConfigFor key))
      = some (ignitionConfigFor key) := rfl

/-- C3 (amended): config synthesis takes only the public key (the
forwarded container-API port is fixed inside the unit text); for every
public key over the characters the repository's documents use, parsing
the serialized synthesis output yields exactly the synthesized structure
(the round trip holds), and the caller's self-check accepts the bytes —
but that self-check verifies only that parsing succeeds, not structural
equivalence. -/
theorem createIgnitionConfig_roundtrip (key : String) (h : goodStr key = true) :
    jsonUnmarshalIgnition (createIgnitionConfig key) = some (ignitionConfigFor key) ∧
    validateIgnitionJSON (createIgnitionConfig key) = true := by
  have hgood := goodJ_encoded key h
  have hmain : jsonUnmarshalIgnition (createIgnitionConfig key)
      = some (ignitionConfigFor key) := by
    unfold jsonUnmarshalIgnition createIgnitionConfig jsonMarshalIgnition
    have hdata : (String.mk (printJ (encodeIgnitionConfig (ignitionConfigFor key)))).data
        = printJ (encodeIgnitionConfig (ignitionConfigFor key)) := rfl
    rw [hdata]
    have hparse := (parse_print
        ((printJ (encodeIgnitionConfig (ignitionConfigFor key))).length + 1)).1
      (encodeIgnitionConfig (ignitionConfigFor key)) [] hgood (by omega)
    rw [List.append_nil] at hparse
    rw [hparse]
    exact decode_encode key
  exact ⟨hmain, by unfold validateIgnitionJSON; rw [hmain]; rfl⟩

theorem createIgnitionConfig_roundtrip_witness :
    goodStr "ssh-rsa AAAAB3Nza+x/y= coreos@container-host" = true ∧
    (jsonUnmarshalIgnition
        (createIgnitionConfig "ssh-rsa AAAAB3Nza+x/y= coreos@container-host")
      = some (ignitionConfigFor "ssh-rsa AAAAB3Nza+x/y= coreos@container-host") ∧
     validateIgnitionJSON
        (createIgnitionConfig "ssh-rsa AAAAB3Nza+x/y= coreos@container-host") = true) :=
  ⟨by decide,
   createIgnitionConfig_roundtrip "ssh-rsa AAAAB3Nza+x/y= coreos@container-host"
     (by decide)⟩

/-- C3 counterexample: the caller's validation (main.go lines 341-348)
accepts the document `"\x7b\x7d"` (an empty JSON object), which parses to
the zero-value structure and is not structurally equal to any synthesized
document — so the caller verifies only JSON validity, not the structural
equivalence the claim states. -/
theorem validateIgnition_not_structural :
    validateIgnitionJSON "\x7b\x7d" = true ∧
    jsonUnmarshalIgnition "\x7b\x7d" ≠ some (ignitionConfigFor "k") := by
  constructor
  · rfl
  · decide

/-- C7: the synthesized document has exactly one user record, `core`,
whose sole authorized key is the whitespace-trimmed public key; exactly
four service units, all enabled, with fixed names; and the TCP-proxy
unit's text embeds the container-API port (2377) that `main` forwards in
its `-netdev` argument. -/
theorem ignition_document_content (key : String) :
    (ignitionConfigFor key).passwd.users
      = [{ name := "core", sshAuthorizedKeys := [goTrimSpace key] }] ∧
    (ignitionConfigFor key).systemd.units.length = 4 ∧
    ((ignitionConfigFor key).systemd.units.map SystemdUnit.name)
      = ["docker-setup.service", "docker-tcp-proxy.service",
         "disable-zincati.service", "setup-linger-core.service"] ∧
    (ignitionConfigFor key).systemd.units.all (fun u => u.enabled) = true ∧
    containsSeq ("TCP-LISTEN:" ++ dockerPort).data dockerTcpServiceContents.data
      = true ∧
    containsSeq ("hostfwd=tcp::" ++ dockerPort ++ "-:2377").data netdevArg.data
      = true :=
  ⟨rfl, rfl, rfl, rfl, by decide, by decide⟩

end ContainerHost
